import Mathlib

/-!
Shallow embedding of the mastra-firestore storage adapter.

Modelling conventions:
- a Firestore collection is a list of stored documents, in backend iteration order;
- a Firestore query is a filter / sort / offset / limit pipeline over that list;
- `Date` values are integer milliseconds since the epoch (`Nat`, or `Int` where
  negative values matter);
- fallible operations return `Except String`, with the error message taken from the
  source (`throw new Error(...)`) or from the backend client rejection it models;
- a field that may be absent from a document (or `undefined` in JS) is an `Option`.
-/

set_option autoImplicit false

universe u

variable {α : Type u}

/-- Insert `x` into `xs` in front of the first element `y` with `le x y`. -/
def insertSorted (le : α → α → Bool) (x : α) : List α → List α
  | [] => [x]
  | y :: ys => if le x y then x :: y :: ys else y :: insertSorted le x ys

/-- Model of the backend's `orderBy`: the documents of the query, sorted by `le`.
Firestore returns the filtered documents in a total order consistent with the
requested field ordering; an insertion sort produces such an order. -/
def sortBy (le : α → α → Bool) : List α → List α
  | [] => []
  | x :: xs => insertSorted le x (sortBy le xs)

theorem mem_insertSorted (le : α → α → Bool) (x z : α) (xs : List α) :
    z ∈ insertSorted le x xs ↔ z = x ∨ z ∈ xs := by
  induction xs with
  | nil => simp [insertSorted]
  | cons y ys ih =>
    simp only [insertSorted]
    by_cases hxy : le x y = true
    · simp only [if_pos hxy, List.mem_cons]
    · simp only [if_neg hxy, List.mem_cons, ih]
      tauto

theorem pairwise_insertSorted (le : α → α → Bool)
    (htot : ∀ a b, le a b = true ∨ le b a = true)
    (htrans : ∀ a b c, le a b = true → le b c = true → le a c = true)
    (x : α) (xs : List α) (h : xs.Pairwise (fun a b => le a b = true)) :
    (insertSorted le x xs).Pairwise (fun a b => le a b = true) := by
  induction xs with
  | nil => simp [insertSorted]
  | cons y ys ih =>
    rcases List.pairwise_cons.mp h with ⟨hy, hys⟩
    simp only [insertSorted]
    by_cases hxy : le x y = true
    · simp only [if_pos hxy]
      refine List.pairwise_cons.mpr ⟨?_, h⟩
      intro z hz
      rcases List.mem_cons.mp hz with hzy | hz
      · rw [hzy]; exact hxy
      · exact htrans x y z hxy (hy z hz)
    · simp only [if_neg hxy]
      refine List.pairwise_cons.mpr ⟨?_, ih hys⟩
      intro z hz
      rcases (mem_insertSorted le x z ys).mp hz with hzx | hz
      · rcases htot x y with h1 | h1
        · exact absurd h1 hxy
        · rw [hzx]; exact h1
      · exact hy z hz

theorem pairwise_sortBy (le : α → α → Bool)
    (htot : ∀ a b, le a b = true ∨ le b a = true)
    (htrans : ∀ a b c, le a b = true → le b c = true → le a c = true)
    (xs : List α) :
    (sortBy le xs).Pairwise (fun a b => le a b = true) := by
  induction xs with
  | nil => exact List.Pairwise.nil
  | cons x xs ih => exact pairwise_insertSorted le htot htrans x _ ih

/-- Fuel-indexed version of the batching loop
`for (let i = 0; i < xs.length; i += bs) xs.slice(i, i + bs)`.
The fuel bounds loop iterations; `chunksOf` supplies fuel `xs.length`, which is
enough for every positive `bs` (each iteration consumes at least one element). -/
def chunksOfFuel (bs : Nat) : Nat → List α → List (List α)
  | 0, _ => []
  | _ + 1, [] => []
  | fuel + 1, x :: rest => ((x :: rest).take bs) :: chunksOfFuel bs fuel ((x :: rest).drop bs)

/-- The successive windows `xs.slice(i, i + bs)` taken by the batching loops. -/
def chunksOf (bs : Nat) (xs : List α) : List (List α) := chunksOfFuel bs xs.length xs

/-- The window sizes produced by chunking a sequence of `n` records into windows of
at most `bs` (fuel-indexed, same shape as `chunksOfFuel`). -/
def natChunksFuel (bs : Nat) : Nat → Nat → List Nat
  | 0, _ => []
  | _ + 1, 0 => []
  | fuel + 1, n + 1 => min bs (n + 1) :: natChunksFuel bs fuel (n + 1 - bs)

/-- The window sizes produced by chunking `n` records into windows of at most `bs`. -/
def natChunks (bs n : Nat) : List Nat := natChunksFuel bs n n

theorem chunksOfFuel_nil (bs fuel : Nat) : chunksOfFuel bs fuel ([] : List α) = [] := by
  cases fuel <;> rfl

theorem map_length_chunksOfFuel (bs : Nat) (fuel : Nat) (xs : List α) :
    (chunksOfFuel bs fuel xs).map List.length = natChunksFuel bs fuel xs.length := by
  induction fuel generalizing xs with
  | zero => rfl
  | succ fuel ih =>
    cases xs with
    | nil => rfl
    | cons x rest =>
      simp only [chunksOfFuel, natChunksFuel, List.map_cons, List.length_cons,
        List.length_take, List.length_drop, ih]

theorem map_length_chunksOf (bs : Nat) (xs : List α) :
    (chunksOf bs xs).map List.length = natChunks bs xs.length :=
  map_length_chunksOfFuel bs xs.length xs

theorem length_le_of_mem_chunksOfFuel {bs fuel : Nat} {xs : List α} {c : List α}
    (hc : c ∈ chunksOfFuel bs fuel xs) : c.length ≤ bs := by
  induction fuel generalizing xs with
  | zero => simp [chunksOfFuel] at hc
  | succ fuel ih =>
    cases xs with
    | nil => simp [chunksOfFuel] at hc
    | cons x rest =>
      simp only [chunksOfFuel, List.mem_cons] at hc
      rcases hc with rfl | hc
      · exact List.length_take_le bs (x :: rest)
      · exact ih hc

theorem length_le_of_mem_chunksOf {bs : Nat} {xs : List α} {c : List α}
    (hc : c ∈ chunksOf bs xs) : c.length ≤ bs :=
  length_le_of_mem_chunksOfFuel hc

theorem flatten_chunksOfFuel (bs : Nat) (hbs : 0 < bs) (fuel : Nat) (xs : List α)
    (hfuel : xs.length ≤ fuel) : (chunksOfFuel bs fuel xs).flatten = xs := by
  induction fuel generalizing xs with
  | zero =>
    cases xs with
    | nil => rfl
    | cons x rest => simp at hfuel
  | succ fuel ih =>
    cases xs with
    | nil => rfl
    | cons x rest =>
      simp only [List.length_cons] at hfuel
      simp only [chunksOfFuel, List.flatten_cons]
      rw [ih]
      · exact List.take_append_drop bs (x :: rest)
      · simp only [List.length_drop, List.length_cons]
        omega

theorem flatten_chunksOf (bs : Nat) (hbs : 0 < bs) (xs : List α) :
    (chunksOf bs xs).flatten = xs :=
  flatten_chunksOfFuel bs hbs xs.length xs (Nat.le_refl _)

theorem length_chunksOfFuel (bs : Nat) (hbs : 0 < bs) (fuel : Nat) (xs : List α)
    (hfuel : xs.length ≤ fuel) :
    (chunksOfFuel bs fuel xs).length = (xs.length + bs - 1) / bs := by
  induction fuel generalizing xs with
  | zero =>
    cases xs with
    | nil =>
      rw [chunksOfFuel_nil]
      simp only [List.length_nil]
      exact (Nat.div_eq_of_lt (by omega)).symm
    | cons x rest => simp at hfuel
  | succ fuel ih =>
    cases xs with
    | nil =>
      rw [chunksOfFuel_nil]
      simp only [List.length_nil]
      exact (Nat.div_eq_of_lt (by omega)).symm
    | cons x rest =>
      simp only [List.length_cons] at hfuel
      simp only [chunksOfFuel, List.length_cons]
      rw [ih ((x :: rest).drop bs) (by simp only [List.length_drop, List.length_cons]; omega)]
      simp only [List.length_drop, List.length_cons]
      rcases Nat.le_total (rest.length + 1) bs with hle | hle
      · have h1 : rest.length + 1 - bs = 0 := by omega
        rw [h1]
        have h4 : (0 + bs - 1) / bs = 0 := Nat.div_eq_of_lt (by omega)
        rw [h4]
        have h2 : rest.length + 1 + bs - 1 = rest.length + bs := by omega
        rw [h2, Nat.add_div_right _ hbs]
        have h3 : rest.length / bs = 0 := Nat.div_eq_of_lt (by omega)
        omega
      · have h1 : rest.length + 1 - bs + bs - 1 = rest.length := by omega
        have h2 : rest.length + 1 + bs - 1 = rest.length + bs := by omega
        rw [h1, h2, Nat.add_div_right _ hbs]

theorem length_chunksOf (bs : Nat) (hbs : 0 < bs) (xs : List α) :
    (chunksOf bs xs).length = (xs.length + bs - 1) / bs :=
  length_chunksOfFuel bs hbs xs.length xs (Nat.le_refl _)

/-- Optional page / perPage as destructured by the source
(`const { page = 1, perPage = 20 } = pagination`); `none` models an
`undefined` field left unspecified by the caller. -/
structure StoragePagination where
  page : Option Nat
  perPage : Option Nat
  deriving DecidableEq, Repr

/-- The result shape shared by every paginated list operation: the windowed items
plus `page`, `perPage`, `total`, `hasMore`. -/
structure PageWindow (α : Type u) where
  items : List α
  page : Nat
  perPage : Nat
  total : Nat
  hasMore : Bool

/-- The paginated-query pipeline shared verbatim by the scores, evals, threads,
messages and traces repositories: order the filtered documents, count them
(`query.count().get()`), then fetch the window
(`query.offset((page - 1) * perPage).limit(perPage).get()`), and report
`hasMore: totalCount > offset + perPage`. `docs` is the already-filtered query. -/
def paginateWindow (docs : List α) (le : α → α → Bool) (page perPage : Nat) :
    PageWindow α :=
  let ordered := sortBy le docs
  let totalCount := docs.length
  let offset := (page - 1) * perPage
  { items := (ordered.drop offset).take perPage
    page := page
    perPage := perPage
    total := totalCount
    hasMore := decide (totalCount > offset + perPage) }

theorem paginateWindow_items_length_le (docs : List α) (le : α → α → Bool)
    (page perPage : Nat) : (paginateWindow docs le page perPage).items.length ≤ perPage :=
  List.length_take_le _ _

theorem paginateWindow_total (docs : List α) (le : α → α → Bool) (page perPage : Nat) :
    (paginateWindow docs le page perPage).total = docs.length := rfl

theorem paginateWindow_page (docs : List α) (le : α → α → Bool) (page perPage : Nat) :
    (paginateWindow docs le page perPage).page = page := rfl

theorem paginateWindow_perPage (docs : List α) (le : α → α → Bool) (page perPage : Nat) :
    (paginateWindow docs le page perPage).perPage = perPage := rfl

theorem paginateWindow_hasMore (docs : List α) (le : α → α → Bool) (page perPage : Nat) :
    (paginateWindow docs le page perPage).hasMore = true ↔
      docs.length > (page - 1) * perPage + perPage := by
  simp [paginateWindow]

theorem paginateWindow_items_pairwise (docs : List α) (le : α → α → Bool)
    (htot : ∀ a b, le a b = true ∨ le b a = true)
    (htrans : ∀ a b c, le a b = true → le b c = true → le a c = true)
    (page perPage : Nat) :
    (paginateWindow docs le page perPage).items.Pairwise (fun a b => le a b = true) := by
  have hsorted := pairwise_sortBy le htot htrans docs
  exact hsorted.sublist
    ((((sortBy le docs).drop _).take_sublist _).trans ((sortBy le docs).drop_sublist _))

/-- Sort direction strings `"ASC" | "DESC"` of `ThreadSortOptions`. -/
inductive SortDirection where
  | asc
  | desc
  deriving DecidableEq, Repr

/-- The `orderBy` field names accepted by `ThreadSortOptions`. -/
inductive ThreadOrderBy where
  | createdAt
  | updatedAt
  deriving DecidableEq, Repr

/-- Apply an optional equality filter (`if (v) query = query.where(field, "==", v)`).
JS truthiness: the filter is skipped both when the value is `undefined` (`none`) and
when it is the empty string. -/
def optFilterEq (field : α → String) : Option String → List α → List α
  | some v, q => if v = "" then q else q.filter (fun r => field r == v)
  | none, q => q

namespace ScoresFirestore

/-- Stored score document (fields written by `serializeScore`). -/
structure ScoreRec where
  id : String
  scorerId : String
  entityId : String
  entityType : String
  source : String
  runId : String
  traceId : String
  spanId : String
  score : Int
  createdAt : Nat
  updatedAt : Nat
  deriving DecidableEq, Repr

/-- Caller-supplied score (`Omit<ScoreRowData, "id" | "createdAt" | "updatedAt">`):
the id and both timestamps are never supplied by the caller. -/
structure ScoreIn where
  scorerId : String
  entityId : String
  entityType : String
  source : String
  runId : String
  traceId : String
  spanId : String
  score : Int
  deriving DecidableEq, Repr

/-- Model of `ScoresFirestore.saveScore`: a generated document id, `createdAt` and
`updatedAt` both set to `now`, then `docRef.set(serializeScore(scoreData))`. -/
def saveScore (score : ScoreIn) (generatedId : String) (now : Nat) : ScoreRec :=
  { id := generatedId
    scorerId := score.scorerId
    entityId := score.entityId
    entityType := score.entityType
    source := score.source
    runId := score.runId
    traceId := score.traceId
    spanId := score.spanId
    score := score.score
    createdAt := now
    updatedAt := now }

/-- Model of `ScoresFirestore.executePaginatedQuery`: defaults
`page = 1, perPage = 20`, orders by `createdAt` descending, counts, windows. -/
def executePaginatedQuery (docs : List ScoreRec) (pagination : StoragePagination) :
    PageWindow ScoreRec :=
  paginateWindow docs (fun a b => b.createdAt ≤ a.createdAt)
    (pagination.page.getD 1) (pagination.perPage.getD 20)

/-- Model of `ScoresFirestore.getScoresByScorerId`: a mandatory `scorerId` equality
filter, optional `entityId` / `entityType` / `source` filters, then the shared
paginated query. -/
def getScoresByScorerId (store : List ScoreRec) (scorerId : String)
    (entityId entityType source : Option String) (pagination : StoragePagination) :
    PageWindow ScoreRec :=
  let q := store.filter (fun s => s.scorerId == scorerId)
  let q := optFilterEq (fun s => s.entityId) entityId q
  let q := optFilterEq (fun s => s.entityType) entityType q
  let q := optFilterEq (fun s => s.source) source q
  executePaginatedQuery q pagination

end ScoresFirestore

namespace LegacyEvalsFirestore

/-- Stored eval document (fields read by `getEvals`). -/
structure EvalRec where
  agentName : String
  type : String
  createdAt : Nat
  deriving DecidableEq, Repr

/-- Model of `LegacyEvalsFirestore.getEvals`: optional `agentName` / `type` equality
filters, `createdAt` descending order, defaults `page = 1, perPage = 20`. -/
def getEvals (store : List EvalRec) (agentName type? : Option String)
    (page perPage : Option Nat) : PageWindow EvalRec :=
  let q := optFilterEq (fun e => e.agentName) agentName store
  let q := optFilterEq (fun e => e.type) type? q
  paginateWindow q (fun a b => b.createdAt ≤ a.createdAt) (page.getD 1) (perPage.getD 20)

end LegacyEvalsFirestore

namespace TracesFirestore

/-- Stored trace document (fields relevant to `getTracesPaginated`). -/
structure TraceRec where
  id : String
  timestamp : Nat
  deriving DecidableEq, Repr

/-- The filtered trace query of `getTracesPaginated` and `getTraces`:
`timestamp >= fromDate` and `timestamp <= toDate` when supplied. -/
def traceQuery (store : List TraceRec) (fromDate toDate : Option Nat) :
    List TraceRec :=
  let q := match fromDate with
    | some d => store.filter (fun t => d ≤ t.timestamp)
    | none => store
  match toDate with
  | some d => q.filter (fun t => t.timestamp ≤ d)
  | none => q

/-- Model of `TracesFirestore.getTracesPaginated`. The source destructures
`const { page, perPage, fromDate, toDate } = args` WITHOUT defaults; when either
`page` or `perPage` is left unspecified the computed `offset = (page - 1) * perPage`
or the `limit(perPage)` argument is `NaN`, which the backend client rejects —
modelled as an error. Order: `timestamp` descending. -/
def getTracesPaginated (store : List TraceRec) (fromDate toDate : Option Nat)
    (page perPage : Option Nat) : Except String (PageWindow TraceRec) :=
  match page, perPage with
  | some page, some perPage =>
      .ok (paginateWindow (traceQuery store fromDate toDate)
        (fun a b => b.timestamp ≤ a.timestamp) page perPage)
  | _, _ => .error "Value for argument offset is not a valid integer."

/-- Model of `TracesFirestore.batchTraceInsert`: early return on an empty record
list, otherwise windows of `batchSize = 500`, one `batch.commit()` per window.
The result is the list of committed batches. -/
def batchTraceInsert (records : List TraceRec) : List (List TraceRec) :=
  if records.length = 0 then [] else chunksOf 500 records

end TracesFirestore

namespace MemoryFirestore

/-- Stored thread document (fields written by `serializeThread`). -/
structure ThreadRec where
  id : String
  resourceId : String
  title : String
  metadata : List (String × String)
  createdAt : Nat
  updatedAt : Nat
  deriving DecidableEq, Repr

/-- Caller-supplied thread (`StorageThreadType`); timestamps and metadata may be
absent. -/
structure ThreadIn where
  id : String
  resourceId : String
  title : String
  metadata : Option (List (String × String))
  createdAt : Option Nat
  updatedAt : Option Nat
  deriving DecidableEq, Repr

/-- Stored message document: `serializeMessage` spreads the caller message, so an
absent `updatedAt` on the message stays absent in the stored document. -/
structure MessageRec where
  id : String
  threadId : String
  content : String
  createdAt : Nat
  updatedAt : Option Nat
  deriving DecidableEq, Repr

/-- Caller-supplied message (`MastraMessageV1 | MastraMessageV2`). -/
structure MessageIn where
  id : String
  threadId : String
  content : String
  createdAt : Option Nat
  updatedAt : Option Nat
  deriving DecidableEq, Repr

/-- Stored resource document (fields written by `serializeResource`). -/
structure ResourceRec where
  id : String
  workingMemory : String
  metadata : List (String × String)
  createdAt : Nat
  updatedAt : Nat
  deriving DecidableEq, Repr

/-- Caller-supplied resource (`StorageResourceType`). -/
structure ResourceIn where
  id : String
  workingMemory : Option String
  metadata : Option (List (String × String))
  createdAt : Option Nat
  updatedAt : Option Nat
  deriving DecidableEq, Repr

/-- The sort key selected by the `orderBy` field name. -/
def threadSortKey : ThreadOrderBy → ThreadRec → Nat
  | .createdAt, t => t.createdAt
  | .updatedAt, t => t.updatedAt

/-- Model of `MemoryFirestore.getThreadsByResourceIdPaginated`: destructuring
defaults `page = 1, perPage = 20, orderBy = "createdAt", sortDirection = "ASC"`,
a `resourceId` equality filter, ordering by the selected field in the selected
direction, then count + window. -/
def getThreadsByResourceIdPaginated (store : List ThreadRec) (resourceId : String)
    (page perPage : Option Nat) (orderBy : Option ThreadOrderBy)
    (sortDirection : Option SortDirection) : PageWindow ThreadRec :=
  let key := threadSortKey (orderBy.getD .createdAt)
  let le : ThreadRec → ThreadRec → Bool := fun a b =>
    match sortDirection.getD .asc with
    | .asc => key a ≤ key b
    | .desc => key b ≤ key a
  let q := store.filter (fun t => t.resourceId == resourceId)
  paginateWindow q le (page.getD 1) (perPage.getD 20)

/-- Model of `MemoryFirestore.saveThread`:
`threadData = { ...thread, createdAt: thread.createdAt || now, updatedAt: now }`,
then `docRef.set(serializeThread(threadData))` (metadata defaults to `{}`). -/
def saveThread (thread : ThreadIn) (now : Nat) : ThreadRec :=
  { id := thread.id
    resourceId := thread.resourceId
    title := thread.title
    metadata := thread.metadata.getD []
    createdAt := thread.createdAt.getD now
    updatedAt := now }

/-- Model of `MemoryFirestore.updateThread`: load the thread document, throw
`Thread ${id} not found` when it does not exist, otherwise update `title`,
`metadata` and `updatedAt` and return the updated record. -/
def updateThread (store : List ThreadRec) (id title : String)
    (metadata : List (String × String)) (now : Nat) : Except String ThreadRec :=
  match store.find? (fun t => t.id == id) with
  | none => .error ("Thread " ++ id ++ " not found")
  | some t => .ok { t with title := title, metadata := metadata, updatedAt := now }

/-- Result of `MemoryFirestore.deleteThread`: the surviving documents of both
collections plus the batches committed for the message cascade. -/
structure DeleteThreadResult where
  threads : List ThreadRec
  messages : List MessageRec
  messageCommits : List (List MessageRec)
  deriving DecidableEq, Repr

/-- Model of `MemoryFirestore.deleteThread`: delete the thread document, query all
messages with this `threadId`, put ALL of them into ONE write batch, and commit
that single batch when the query returned at least one document. The cascade is
not windowed by the 500-write batch limit. -/
def deleteThread (threads : List ThreadRec) (messages : List MessageRec)
    (threadId : String) : DeleteThreadResult :=
  let matching := messages.filter (fun m => m.threadId == threadId)
  { threads := threads.filter (fun t => !(t.id == threadId))
    messages := messages.filter (fun m => !(m.threadId == threadId))
    messageCommits := if matching.length > 0 then [matching] else [] }

/-- Model of `MemoryFirestore.getMessagesPaginated`: a `threadId` equality filter,
one extra `id` equality filter per `selectBy.include` entry, ordering by
`createdAt` ASCENDING (fixed), defaults `page = 1, perPage = 20`. -/
def getMessagesPaginated (store : List MessageRec) (threadId : String)
    (includeIds : List String) (page perPage : Option Nat) : PageWindow MessageRec :=
  let q := store.filter
    (fun m => m.threadId == threadId && includeIds.all (fun i => m.id == i))
  paginateWindow q (fun a b => a.createdAt ≤ b.createdAt) (page.getD 1) (perPage.getD 20)

/-- Result of `MemoryFirestore.getMessagesById`: the concatenated messages plus the
number of underlying backend queries issued. -/
structure MessagesByIdResult where
  messages : List MessageRec
  numQueries : Nat
  deriving DecidableEq, Repr

/-- Model of `MemoryFirestore.getMessagesById`: early return on an empty id list;
otherwise the ids are windowed into groups of `batchSize = 10` (the backend's
`in`-filter limit), one `where("id", "in", batchIds)` query is issued per group,
and the per-group results are concatenated in order. -/
def getMessagesById (store : List MessageRec) (messageIds : List String) :
    MessagesByIdResult :=
  if messageIds.length = 0 then { messages := [], numQueries := 0 }
  else
    let batches := chunksOf 10 messageIds
    { messages := batches.flatMap (fun b => store.filter (fun m => decide (m.id ∈ b)))
      numQueries := batches.length }

/-- Model of `MemoryFirestore.saveMessages`:
`messageData = { ...message, createdAt: message.createdAt || now }` for every
message, all written in one batch. No `updatedAt` is assigned anywhere. -/
def saveMessages (messages : List MessageIn) (now : Nat) : List MessageRec :=
  messages.map (fun m =>
    { id := m.id
      threadId := m.threadId
      content := m.content
      createdAt := m.createdAt.getD now
      updatedAt := m.updatedAt })

/-- Model of `MemoryFirestore.deleteMessages`: early return on an empty id list,
otherwise windows of `batchSize = 500`, one `batch.commit()` per window. The
result is the list of committed deletion batches. -/
def deleteMessages (messageIds : List String) : List (List String) :=
  if messageIds.length = 0 then [] else chunksOf 500 messageIds

/-- Model of `MemoryFirestore.saveResource`:
`resourceData = { ...resource, createdAt: resource.createdAt || now, updatedAt: now }`,
then `docRef.set(serializeResource(resourceData))` (workingMemory defaults to `""`,
metadata to `{}`). -/
def saveResource (resource : ResourceIn) (now : Nat) : ResourceRec :=
  { id := resource.id
    workingMemory := resource.workingMemory.getD ""
    metadata := resource.metadata.getD []
    createdAt := resource.createdAt.getD now
    updatedAt := now }

/-- Model of `MemoryFirestore.updateResource`: load the resource document, throw
`Resource ${resourceId} not found` when it does not exist, otherwise update
`updatedAt`, plus `workingMemory` and `metadata` only when supplied. -/
def updateResource (store : List ResourceRec) (resourceId : String)
    (workingMemory : Option String) (metadata : Option (List (String × String)))
    (now : Nat) : Except String ResourceRec :=
  match store.find? (fun r => r.id == resourceId) with
  | none => .error ("Resource " ++ resourceId ++ " not found")
  | some r =>
      .ok { r with
        workingMemory := workingMemory.getD r.workingMemory
        metadata := metadata.getD r.metadata
        updatedAt := now }

end MemoryFirestore

/-- JS object property assignment (`results[stepId] = result`) on an object modelled
as an association list: replace the value of an existing key in place, or append a
new key at the end. -/
def updateEntry {β : Type u} : List (String × β) → String → β → List (String × β)
  | [], k, v => [(k, v)]
  | (k0, v0) :: rest, k, v =>
      if k0 = k then (k, v) :: rest else (k0, v0) :: updateEntry rest k v

/-- JS object property read (`results[s]`). -/
def lookupEntry {β : Type u} : List (String × β) → String → Option β
  | [], _ => none
  | (k0, v0) :: rest, k => if k0 = k then some v0 else lookupEntry rest k

theorem lookupEntry_updateEntry_self {β : Type u} (l : List (String × β)) (k : String)
    (v : β) : lookupEntry (updateEntry l k v) k = some v := by
  induction l with
  | nil => simp [updateEntry, lookupEntry]
  | cons kv rest ih =>
    obtain ⟨k0, v0⟩ := kv
    by_cases h : k0 = k
    · simp [updateEntry, lookupEntry, h]
    · simp [updateEntry, lookupEntry, h, ih]

theorem lookupEntry_updateEntry_ne {β : Type u} (l : List (String × β)) (k k1 : String)
    (v : β) (h : k1 ≠ k) : lookupEntry (updateEntry l k v) k1 = lookupEntry l k1 := by
  induction l with
  | nil => simp [updateEntry, lookupEntry, Ne.symm h]
  | cons kv rest ih =>
    obtain ⟨k0, v0⟩ := kv
    by_cases h0 : k0 = k
    · subst h0
      simp [updateEntry, lookupEntry, Ne.symm h]
    · by_cases h1 : k0 = k1
      · subst h1
        simp [updateEntry, lookupEntry, h0]
      · simp [updateEntry, lookupEntry, h0, h1, ih]

namespace WorkflowsFirestore

/-- Stored workflow snapshot document, keyed `{workflowName}_{runId}`. Step results
and runtime-context values are opaque to the adapter and modelled as integers;
`none` on an optional field models a field absent from the document. -/
structure SnapshotDoc where
  workflowName : String
  runId : String
  resourceId : Option String
  results : Option (List (String × Int))
  runtimeContext : List (String × Int)
  status : Option String
  result : Option Int
  error : Option String
  suspendedPaths : Option (List (String × List Nat))
  waitingPaths : Option (List (String × List Nat))
  createdAt : Option Nat
  updatedAt : Option Nat
  deriving DecidableEq, Repr

/-- A snapshot document with every field absent, used as the base when
`docRef.set(..., { merge: true })` creates the document. -/
def emptyDoc : SnapshotDoc :=
  { workflowName := "", runId := "", resourceId := none, results := none,
    runtimeContext := [], status := none, result := none, error := none,
    suspendedPaths := none, waitingPaths := none, createdAt := none,
    updatedAt := none }

/-- Model of `WorkflowsFirestore.updateWorkflowResults`: read the snapshot document
(`results = data?.results || {}`), assign `results[stepId] = result`, then
`docRef.set({ workflowName, runId, results, runtimeContext, updatedAt }, { merge: true })`
— a top-level-field merge that keeps every field not listed — and return `results`.
The first component is the stored document, the second the returned map. -/
def updateWorkflowResults (doc : Option SnapshotDoc) (workflowName runId stepId : String)
    (result : Int) (runtimeContext : List (String × Int)) (now : Nat) :
    SnapshotDoc × List (String × Int) :=
  let results0 := match doc with
    | some d => d.results.getD []
    | none => []
  let results := updateEntry results0 stepId result
  let base := doc.getD emptyDoc
  ({ base with
      workflowName := workflowName
      runId := runId
      results := some results
      runtimeContext := runtimeContext
      updatedAt := some now },
    results)

/-- The `opts` argument of `updateWorkflowState`: `status` plus optional partial
fields. -/
structure UpdateStateOpts where
  status : String
  result : Option Int
  error : Option String
  suspendedPaths : Option (List (String × List Nat))
  waitingPaths : Option (List (String × List Nat))
  deriving DecidableEq, Repr

/-- Model of `WorkflowsFirestore.updateWorkflowState`: when the snapshot document
does not exist the source does `if (!doc.exists) return undefined` — it returns
`undefined` WITHOUT throwing (modelled `.ok none`). Otherwise `status` and
`updatedAt` are always updated and `result` / `error` / `suspendedPaths` /
`waitingPaths` only when supplied, via `docRef.update(updates)`. -/
def updateWorkflowState (doc : Option SnapshotDoc) (opts : UpdateStateOpts) (now : Nat) :
    Except String (Option SnapshotDoc) :=
  match doc with
  | none => .ok none
  | some d =>
      .ok (some { d with
        status := some opts.status
        updatedAt := some now
        result := match opts.result with | some v => some v | none => d.result
        error := match opts.error with | some v => some v | none => d.error
        suspendedPaths :=
          match opts.suspendedPaths with | some v => some v | none => d.suspendedPaths
        waitingPaths :=
          match opts.waitingPaths with | some v => some v | none => d.waitingPaths })

/-- Result shape of `getWorkflowRuns`: the windowed runs plus the aggregate count
(`{ runs, total }`). -/
structure WorkflowRunsResult where
  runs : List SnapshotDoc
  total : Nat
  deriving DecidableEq, Repr

/-- Model of `WorkflowsFirestore.getWorkflowRuns`: optional `workflowName` /
`resourceId` equality filters (skipped for `undefined` and, by JS truthiness, for
empty strings), optional `createdAt >= fromDate` / `createdAt <= toDate` range
filters, `createdAt` DESCENDING order, an aggregate count over the ordered query,
then an `offset(offset).limit(limit)` window with the destructuring defaults
`limit = 50, offset = 0`. The backend excludes a document from a query that
range-filters or orders on `createdAt` when the document carries no such field. -/
def getWorkflowRuns (store : List SnapshotDoc)
    (workflowName resourceId : Option String) (fromDate toDate : Option Nat)
    (limit offset : Option Nat) : WorkflowRunsResult :=
  let q := optFilterEq (fun d => d.workflowName) workflowName store
  let q := match resourceId with
    | some r => if r = "" then q else q.filter (fun d => d.resourceId == some r)
    | none => q
  let q := match fromDate with
    | some fd => q.filter (fun d : SnapshotDoc => match d.createdAt with
        | some c => fd ≤ c
        | none => false)
    | none => q
  let q := match toDate with
    | some td => q.filter (fun d : SnapshotDoc => match d.createdAt with
        | some c => c ≤ td
        | none => false)
    | none => q
  let q := q.filter (fun d => d.createdAt.isSome)
  let ordered := sortBy (fun a b => b.createdAt.getD 0 ≤ a.createdAt.getD 0) q
  { runs := (ordered.drop (offset.getD 0)).take (limit.getD 50)
    total := q.length }

end WorkflowsFirestore

namespace ObservabilityFirestore

/-- Stored AI span record, keyed by `{traceId, spanId}`. -/
structure SpanRec where
  spanId : String
  traceId : String
  name : String
  spanType : String
  entityId : String
  entityType : String
  createdAt : Option Nat
  updatedAt : Option Nat
  deriving DecidableEq, Repr

/-- The `filters` argument of `getAITracesPaginated`; a key is added to the `load`
call only when the filter is not `undefined`. -/
structure SpanFilters where
  name : Option String
  spanType : Option String
  entityId : Option String
  entityType : Option String
  deriving DecidableEq, Repr

/-- The conjunction of `where(key, "==", value)` clauses built from the provided
filter keys; an absent filter adds no clause. -/
def matchesSpanFilters (f : SpanFilters) (s : SpanRec) : Bool :=
  (match f.name with | some v => s.name == v | none => true)
    && (match f.spanType with | some v => s.spanType == v | none => true)
    && (match f.entityId with | some v => s.entityId == v | none => true)
    && (match f.entityType with | some v => s.entityType == v | none => true)

/-- Model of `StoreOperationsFirestore.load` for key sets without an `id` key: a
chain of equality filters, `limit(1)`, and the first returned document or `null`
when the query is empty. -/
def loadFirstSpan (spans : List SpanRec) (p : SpanRec → Bool) : Option SpanRec :=
  (spans.filter p).head?

/-- Model of `ObservabilityFirestore.createAISpan`:
`insert({ record: { ...span, createdAt: span.createdAt || new Date() } })`.
No `updatedAt` is assigned. -/
def createAISpan (span : SpanRec) (now : Nat) : SpanRec :=
  { span with createdAt := some (span.createdAt.getD now) }

/-- The `updates` argument of `updateAISpan`
(`Partial<Omit<AISpanRecord, "spanId" | "traceId">>`). -/
structure SpanUpdates where
  name : Option String
  spanType : Option String
  entityId : Option String
  entityType : Option String
  createdAt : Option Nat
  deriving DecidableEq, Repr

/-- Model of `ObservabilityFirestore.updateAISpan`: load the existing span by
`{ spanId, traceId }`, throw `Span ${spanId} in trace ${traceId} not found` when
missing, otherwise `{ ...existingSpan, ...updates, spanId, traceId, updatedAt }`
re-inserted. -/
def updateAISpan (spans : List SpanRec) (spanId traceId : String)
    (updates : SpanUpdates) (now : Nat) : Except String SpanRec :=
  match loadFirstSpan spans (fun s => s.spanId == spanId && s.traceId == traceId) with
  | none => .error ("Span " ++ spanId ++ " in trace " ++ traceId ++ " not found")
  | some existing =>
      .ok { spanId := spanId
            traceId := traceId
            name := updates.name.getD existing.name
            spanType := updates.spanType.getD existing.spanType
            entityId := updates.entityId.getD existing.entityId
            entityType := updates.entityType.getD existing.entityType
            createdAt := match updates.createdAt with
              | some v => some v
              | none => existing.createdAt
            updatedAt := some now }

/-- Model of `ObservabilityFirestore.getAITracesPaginated`. The backing fetch is
`operations.load<AISpanRecord[]>({ tableName: TABLE_AI_SPANS, keys })`, but `load`
issues a `limit(1)` query and returns ONE deserialized record (or `null`), never an
array. On `null`, `allSpans || []` yields `[]`: the page is empty with `total: 0`.
When a record is returned, `spans` is that single record object: `spans.length` is
`undefined` and `spans.slice(offset, offset + perPage)` throws a TypeError —
modelled as an error. -/
def getAITracesPaginated (spans : List SpanRec) (filters : SpanFilters)
    (page perPage : Option Nat) : Except String (PageWindow SpanRec) :=
  let p := page.getD 1
  let pp := perPage.getD 20
  match loadFirstSpan spans (matchesSpanFilters filters) with
  | none =>
      .ok { items := [], page := p, perPage := pp, total := 0,
            hasMore := decide (0 > (p - 1) * pp + pp) }
  | some _ => .error "TypeError: spans.slice is not a function"

end ObservabilityFirestore

namespace StoreOperationsFirestore

/-- Model of `StoreOperationsFirestore.hasColumn`: unconditionally
`throw new Error("Method not implemented.")`, for every table and column. -/
def hasColumn (_table _column : String) : Except String Bool :=
  .error "Method not implemented."

/-- Model of `StoreOperationsFirestore.batchInsert`: windows of `batchSize = 500`
(the backend's batch limit), one `batch.commit()` per window, committed
sequentially. The result is the list of committed batches. (Whether a record
targets its own `id` or a generated document id does not affect the batching.) -/
def batchInsert {ρ : Type u} (records : List ρ) : List (List ρ) :=
  chunksOf 500 records

mutual
/-- Plain JSON values: exactly what survives `JSON.parse(JSON.stringify(v))` for
the supported nested-object fields (strings, numbers, nulls, nested plain
objects). -/
inductive JVal where
  | str : String → JVal
  | num : Int → JVal
  | null : JVal
  | obj : JFields → JVal
  deriving DecidableEq, Repr
inductive JFields where
  | nil : JFields
  | cons : String → JVal → JFields → JFields
  deriving DecidableEq, Repr
end

/-- A domain record field of one of the supported types: string, number, date
(integer epoch milliseconds), null, or nested plain object. -/
inductive FieldVal where
  | str : String → FieldVal
  | num : Int → FieldVal
  | date : Int → FieldVal
  | null : FieldVal
  | obj : JFields → FieldVal
  deriving DecidableEq, Repr

/-- A stored document field as the backend hands it back: a written `Date` comes
back as a native timestamp carrying `_seconds` and `_nanoseconds`. -/
inductive StoredVal where
  | str : String → StoredVal
  | num : Int → StoredVal
  | null : StoredVal
  | timestamp : Int → Nat → StoredVal
  | obj : JFields → StoredVal
  deriving DecidableEq, Repr

/-- A decoded field as produced by `deserializeRecord`; `invalidDate` is JS's
Invalid Date (`new Date(NaN)`), reachable only through the `_seconds` branch. -/
inductive DecodedVal where
  | str : String → DecodedVal
  | num : Int → DecodedVal
  | date : Int → DecodedVal
  | invalidDate : DecodedVal
  | null : DecodedVal
  | obj : JFields → DecodedVal
  deriving DecidableEq, Repr

mutual
/-- Model of `JSON.parse(JSON.stringify(v))` on plain JSON data (the identity,
proved below as `jsonRoundTrip_eq`). -/
def jsonRoundTrip : JVal → JVal
  | .str s => .str s
  | .num n => .num n
  | .null => .null
  | .obj fields => .obj (jsonRoundTripFields fields)
def jsonRoundTripFields : JFields → JFields
  | .nil => .nil
  | .cons k v rest => .cons k (jsonRoundTrip v) (jsonRoundTripFields rest)
end

mutual
theorem jsonRoundTrip_eq : (v : JVal) → jsonRoundTrip v = v
  | .str _ => rfl
  | .num _ => rfl
  | .null => rfl
  | .obj fields => by rw [jsonRoundTrip, jsonRoundTripFields_eq fields]
theorem jsonRoundTripFields_eq : (fs : JFields) → jsonRoundTripFields fs = fs
  | .nil => rfl
  | .cons k v rest => by
      rw [jsonRoundTripFields, jsonRoundTrip_eq v, jsonRoundTripFields_eq rest]
end

/-- Model of one field of `serializeRecord`, composed with the backend's write-time
conversion of `Date` to a native timestamp (floored seconds + remainder
nanoseconds):
`value instanceof Date` kept (stored as a timestamp); `null`/`undefined` stored as
explicit `null`; other objects pass through `JSON.parse(JSON.stringify(value))`;
primitives pass through. -/
def serializeVal : FieldVal → StoredVal
  | .date ms => .timestamp (Int.fdiv ms 1000) ((ms - Int.fdiv ms 1000 * 1000).toNat * 1000000)
  | .null => .null
  | .obj fields => .obj (jsonRoundTripFields fields)
  | .str s => .str s
  | .num n => .num n

/-- Model of `StoreOperationsFirestore.serializeRecord` (one stored field per
record field). -/
def serializeRecord (record : List (String × FieldVal)) : List (String × StoredVal) :=
  record.map (fun kv => (kv.1, serializeVal kv.2))

/-- Own-property lookup on a plain JSON object (`"_seconds" in value` /
`value._seconds`). -/
def jFieldsLookup : JFields → String → Option JVal
  | .nil, _ => none
  | .cons k v rest, key => if k = key then some v else jFieldsLookup rest key

/-- JS numeric coercion of the `_seconds` property inside
`new Date(value._seconds * 1000)`: numbers coerce to themselves, `null` to `0`,
integer-literal strings to their value (`String.toInt?` approximates `Number()`;
no claim depends on fractional or exotic numeric strings), and other objects to
`NaN` (`none`). -/
def jsSeconds : JVal → Option Int
  | .num n => some n
  | .null => some 0
  | .str s => s.toInt?
  | .obj _ => none

/-- Model of one field of `deserializeRecord`: any truthy object value with a
`_seconds` property — a backend timestamp, but equally any plain object that
happens to carry a `_seconds` key — becomes `new Date(value._seconds * 1000)`;
every other value passes through. -/
def deserializeVal : StoredVal → DecodedVal
  | .timestamp secs _ => .date (secs * 1000)
  | .obj fields =>
      match jFieldsLookup fields "_seconds" with
      | some v =>
          match jsSeconds v with
          | some n => .date (n * 1000)
          | none => .invalidDate
      | none => .obj fields
  | .str s => .str s
  | .num n => .num n
  | .null => .null

/-- Model of `StoreOperationsFirestore.deserializeRecord` on present document data
(the `undefined` guard returning `{}` is outside the round-trip claim). -/
def deserializeRecord (data : List (String × StoredVal)) : List (String × DecodedVal) :=
  data.map (fun kv => (kv.1, deserializeVal kv.2))

/-- The embedding of domain field values into decoded field values; a decoded
record equal to `record.map toDecoded` is what "decode gives back the record"
means. -/
def FieldVal.toDecoded : FieldVal → DecodedVal
  | .str s => .str s
  | .num n => .num n
  | .date ms => .date ms
  | .null => .null
  | .obj fields => .obj fields

/-- Truncation of a date field to whole seconds (the claim's "up to timestamp
precision, second-level"); non-date fields are untouched. -/
def truncToSecond : FieldVal → FieldVal
  | .date ms => .date (Int.fdiv ms 1000 * 1000)
  | v => v

/-- Whether a field value is a plain object carrying a top-level `_seconds` key
(the values misrecognized as timestamps by `deserializeRecord`). -/
def hasSecondsKey : FieldVal → Bool
  | .obj fields => (jFieldsLookup fields "_seconds").isSome
  | _ => false

end StoreOperationsFirestore

namespace FirestoreStore

/-- The capability flags advertised by the `FirestoreStore.supports` getter. -/
structure SupportsFlags where
  selectByIncludeResourceScope : Bool
  resourceWorkingMemory : Bool
  hasColumn : Bool
  createTable : Bool
  deleteMessages : Bool
  aiTracing : Bool
  getScoresBySpan : Bool
  deriving DecidableEq, Repr

/-- Model of the `FirestoreStore.supports` getter: every flag, including
`hasColumn`, is `true`. -/
def supports : SupportsFlags :=
  { selectByIncludeResourceScope := true
    resourceWorkingMemory := true
    hasColumn := true
    createTable := true
    deleteMessages := true
    aiTracing := true
    getScoresBySpan := true }

end FirestoreStore

/-- C10: `FirestoreStore.supports` advertises `hasColumn = true`, yet for every
table name and column name the `hasColumn` operation unconditionally raises the
"Method not implemented." failure and never returns a boolean. -/
theorem c10_supports_hasColumn_but_unimplemented :
    FirestoreStore.supports.hasColumn = true ∧
      ∀ table column : String,
        StoreOperationsFirestore.hasColumn table column =
            Except.error "Method not implemented." ∧
          ∀ b : Bool, StoreOperationsFirestore.hasColumn table column ≠ Except.ok b := by
  refine ⟨rfl, fun table column => ⟨rfl, fun b h => ?_⟩⟩
  simp [StoreOperationsFirestore.hasColumn] at h

/-- C3: for every stored workflow snapshot with results map `R`,
`updateWorkflowResults` with step `stepId` and value `result` stores (and returns)
exactly `R` with `stepId` mapped to `result`: the new step is present with the new
value and every other step's entry is unchanged. -/
theorem c3_updateWorkflowResults_merges (doc : Option WorkflowsFirestore.SnapshotDoc)
    (workflowName runId stepId : String) (result : Int)
    (runtimeContext : List (String × Int)) (now : Nat) :
    (WorkflowsFirestore.updateWorkflowResults doc workflowName runId stepId result
        runtimeContext now).1.results =
      some (WorkflowsFirestore.updateWorkflowResults doc workflowName runId stepId result
        runtimeContext now).2 ∧
    lookupEntry (WorkflowsFirestore.updateWorkflowResults doc workflowName runId stepId
        result runtimeContext now).2 stepId = some result ∧
    ∀ s, s ≠ stepId →
      lookupEntry (WorkflowsFirestore.updateWorkflowResults doc workflowName runId stepId
          result runtimeContext now).2 s =
        lookupEntry ((doc.map (fun d => d.results.getD [])).getD []) s := by
  refine ⟨?_, ?_, ?_⟩
  · cases doc <;> rfl
  · cases doc <;>
      simpa [WorkflowsFirestore.updateWorkflowResults] using
        lookupEntry_updateEntry_self _ stepId result
  · intro s hs
    cases doc <;>
      simpa [WorkflowsFirestore.updateWorkflowResults] using
        lookupEntry_updateEntry_ne _ stepId s result hs

/-- C3 witness: starting from `results = {a: 1}`, updating step `b` with value `2`
returns `{a: 1, b: 2}` — step `b` is present and step `a` is untouched. -/
theorem c3_updateWorkflowResults_merges_witness :
    lookupEntry (WorkflowsFirestore.updateWorkflowResults
        (some { WorkflowsFirestore.emptyDoc with results := some [("a", 1)] })
        "wf" "run" "b" 2 [] 7).2 "b" = some 2 ∧
    lookupEntry (WorkflowsFirestore.updateWorkflowResults
        (some { WorkflowsFirestore.emptyDoc with results := some [("a", 1)] })
        "wf" "run" "b" 2 [] 7).2 "a" = some 1 ∧
    (WorkflowsFirestore.updateWorkflowResults
        (some { WorkflowsFirestore.emptyDoc with results := some [("a", 1)] })
        "wf" "run" "b" 2 [] 7).2 = [("a", 1), ("b", 2)] := by
  refine ⟨(c3_updateWorkflowResults_merges
      (some { WorkflowsFirestore.emptyDoc with results := some [("a", 1)] })
      "wf" "run" "b" 2 [] 7).2.1, ?_, by decide⟩
  have h := (c3_updateWorkflowResults_merges
      (some { WorkflowsFirestore.emptyDoc with results := some [("a", 1)] })
      "wf" "run" "b" 2 [] 7).2.2 "a" (by decide)
  rw [h]
  decide

/-- C4 counterexample: `updateWorkflowState` on a missing snapshot document does
NOT raise a named failure — it silently returns `undefined` (`ok none`), refuting
the claim that every listed update operation raises a failure naming the missing
record. -/
theorem c4_updateWorkflowState_silent_counterexample :
    WorkflowsFirestore.updateWorkflowState none
      { status := "success", result := none, error := none,
        suspendedPaths := none, waitingPaths := none } 7 = Except.ok none := rfl

/-- C4 amended: `updateThread`, `updateResource` and `updateAISpan` raise a named
failure identifying the missing record's id when the target does not exist;
`updateWorkflowState`, however, silently returns `undefined` in that case. -/
theorem c4_amended_missing_record_behaviour :
    (∀ (store : List MemoryFirestore.ThreadRec) (id title : String)
        (metadata : List (String × String)) (now : Nat),
        store.find? (fun t => t.id == id) = none →
        MemoryFirestore.updateThread store id title metadata now =
          Except.error ("Thread " ++ id ++ " not found")) ∧
    (∀ (store : List MemoryFirestore.ResourceRec) (resourceId : String)
        (workingMemory : Option String) (metadata : Option (List (String × String)))
        (now : Nat),
        store.find? (fun r => r.id == resourceId) = none →
        MemoryFirestore.updateResource store resourceId workingMemory metadata now =
          Except.error ("Resource " ++ resourceId ++ " not found")) ∧
    (∀ (spans : List ObservabilityFirestore.SpanRec) (spanId traceId : String)
        (updates : ObservabilityFirestore.SpanUpdates) (now : Nat),
        ObservabilityFirestore.loadFirstSpan spans
            (fun s => s.spanId == spanId && s.traceId == traceId) = none →
        ObservabilityFirestore.updateAISpan spans spanId traceId updates now =
          Except.error ("Span " ++ spanId ++ " in trace " ++ traceId ++ " not found")) ∧
    (∀ (opts : WorkflowsFirestore.UpdateStateOpts) (now : Nat),
        WorkflowsFirestore.updateWorkflowState none opts now = Except.ok none) := by
  refine ⟨?_, ?_, ?_, fun opts now => rfl⟩
  · intro store id title metadata now h
    simp [MemoryFirestore.updateThread, h]
  · intro store resourceId workingMemory metadata now h
    simp [MemoryFirestore.updateResource, h]
  · intro spans spanId traceId updates now h
    simp [ObservabilityFirestore.updateAISpan, h]

/-- C4 witness: on an empty thread collection, updating thread `t1` fails with the
named error. -/
theorem c4_amended_missing_record_behaviour_witness :
    MemoryFirestore.updateThread [] "t1" "new title" [] 0 =
      Except.error ("Thread " ++ "t1" ++ " not found") :=
  c4_amended_missing_record_behaviour.1 [] "t1" "new title" [] 0 rfl

/-- C9: `getAITracesPaginated` never successfully returns a matching span: when no
span matches the filters the call succeeds with an empty page and `total = 0`;
when at least one span matches, the single record loaded by the `limit(1)` fetch
is not an array and the call fails instead of producing the spans. -/
theorem c9_getAITracesPaginated_never_returns_spans
    (spans : List ObservabilityFirestore.SpanRec)
    (filters : ObservabilityFirestore.SpanFilters) (page perPage : Option Nat) :
    ((∀ s ∈ spans, ObservabilityFirestore.matchesSpanFilters filters s = false) →
      ObservabilityFirestore.getAITracesPaginated spans filters page perPage =
        Except.ok { items := [], page := page.getD 1, perPage := perPage.getD 20,
                    total := 0, hasMore := false }) ∧
    ((∃ s ∈ spans, ObservabilityFirestore.matchesSpanFilters filters s = true) →
      (ObservabilityFirestore.getAITracesPaginated spans filters page perPage).isOk =
        false) ∧
    (∀ pg, ObservabilityFirestore.getAITracesPaginated spans filters page perPage =
        Except.ok pg → pg.items = [] ∧ pg.total = 0) := by
  have hchar : ∀ s : List ObservabilityFirestore.SpanRec,
      (ObservabilityFirestore.loadFirstSpan s
          (ObservabilityFirestore.matchesSpanFilters filters) = none) ↔
        ∀ x ∈ s, ObservabilityFirestore.matchesSpanFilters filters x = false := by
    intro s
    simp [ObservabilityFirestore.loadFirstSpan, List.head?_eq_none_iff,
      List.filter_eq_nil_iff]
  refine ⟨?_, ?_, ?_⟩
  · intro hnone
    have h := (hchar spans).mpr hnone
    simp [ObservabilityFirestore.getAITracesPaginated, h]
  · intro hsome
    rcases hsome with ⟨s, hs, hmatch⟩
    rcases hload : ObservabilityFirestore.loadFirstSpan spans
        (ObservabilityFirestore.matchesSpanFilters filters) with _ | found
    · have := (hchar spans).mp hload s hs
      rw [hmatch] at this
      exact absurd this (by simp)
    · simp [ObservabilityFirestore.getAITracesPaginated, hload, Except.isOk,
        Except.toBool]
  · intro pg hpg
    rcases hload : ObservabilityFirestore.loadFirstSpan spans
        (ObservabilityFirestore.matchesSpanFilters filters) with _ | found
    · simp only [ObservabilityFirestore.getAITracesPaginated, hload] at hpg
      injection hpg with h2
      rw [← h2]
      exact ⟨rfl, rfl⟩
    · simp [ObservabilityFirestore.getAITracesPaginated, hload] at hpg

/-- A sample AI span used for concrete evaluations. -/
def sampleSpan : ObservabilityFirestore.SpanRec :=
  { spanId := "s1", traceId := "t1", name := "n", spanType := "llm",
    entityId := "e", entityType := "agent", createdAt := none, updatedAt := none }

/-- An empty filter set for `getAITracesPaginated` (every filter left unspecified). -/
def noSpanFilters : ObservabilityFirestore.SpanFilters :=
  { name := none, spanType := none, entityId := none, entityType := none }

/-- C9 witness: with one span in the collection and no filters, a span matches and
the call fails; with an empty collection it succeeds with the empty page. -/
theorem c9_getAITracesPaginated_witness :
    (ObservabilityFirestore.getAITracesPaginated [sampleSpan] noSpanFilters
        none none).isOk = false ∧
    ObservabilityFirestore.getAITracesPaginated [] noSpanFilters none none =
      Except.ok { items := [], page := 1, perPage := 20, total := 0,
                  hasMore := false } := by
  constructor
  · refine (c9_getAITracesPaginated_never_returns_spans [sampleSpan] noSpanFilters
        none none).2.1 ⟨sampleSpan, ?_, ?_⟩ <;> decide
  · exact (c9_getAITracesPaginated_never_returns_spans [] noSpanFilters
        none none).1 (by simp)

/-- A sample stored message used for concrete evaluations. -/
def sampleMessage : MemoryFirestore.MessageRec :=
  { id := "m", threadId := "T1", content := "hi", createdAt := 0, updatedAt := none }

theorem filter_replicate_of_pos {β : Type u} (p : β → Bool) (a : β) (h : p a = true)
    (n : Nat) : (List.replicate n a).filter p = List.replicate n a := by
  induction n with
  | zero => rfl
  | succ n ih => simp [List.replicate_succ, List.filter_cons, h, ih]

/-- C2 counterexample: deleting a thread whose 501 messages must cascade issues one
single batch commit of 501 deletes — the message cascade of `deleteThread` is not
split into commits of at most 500 writes. -/
theorem c2_deleteThread_cascade_unchunked_counterexample :
    ((MemoryFirestore.deleteThread [] (List.replicate 501 sampleMessage)
        "T1").messageCommits.map List.length = [501]) ∧
    ¬ (∀ c ∈ (MemoryFirestore.deleteThread [] (List.replicate 501 sampleMessage)
        "T1").messageCommits, c.length ≤ 500) := by
  have hfilter : (List.replicate 501 sampleMessage).filter
      (fun m => m.threadId == "T1") = List.replicate 501 sampleMessage :=
    filter_replicate_of_pos _ _ (by decide) 501
  have hcommits : (MemoryFirestore.deleteThread [] (List.replicate 501 sampleMessage)
      "T1").messageCommits = [List.replicate 501 sampleMessage] := by
    simp only [MemoryFirestore.deleteThread, hfilter, List.length_replicate]
    rw [if_pos (by norm_num)]
  constructor
  · rw [hcommits]
    simp only [List.map_cons, List.map_nil, List.length_replicate]
  · rw [hcommits]
    intro hall
    have h5 := hall (List.replicate 501 sampleMessage) (List.mem_singleton.mpr rfl)
    rw [List.length_replicate] at h5
    omega

/-- C2 amended: the generic batch insert, the batch trace insert and the message
deletion all split their writes into sequential commits of at most 500 (1200
records commit as 500, 500, 200; 7 ids commit once), and every input record lands
in exactly one commit; the message-cascade step of thread deletion instead issues
at most one commit holding every matching message delete. -/
theorem c2_amended_batch_chunking :
    (∀ (ρ : Type) (records : List ρ),
        (∀ c ∈ StoreOperationsFirestore.batchInsert records, c.length ≤ 500) ∧
        (StoreOperationsFirestore.batchInsert records).flatten = records ∧
        (StoreOperationsFirestore.batchInsert records).map List.length =
          natChunks 500 records.length) ∧
    (∀ records : List TracesFirestore.TraceRec,
        (∀ c ∈ TracesFirestore.batchTraceInsert records, c.length ≤ 500) ∧
        (TracesFirestore.batchTraceInsert records).map List.length =
          natChunks 500 records.length) ∧
    (∀ ids : List String,
        (∀ c ∈ MemoryFirestore.deleteMessages ids, c.length ≤ 500) ∧
        (MemoryFirestore.deleteMessages ids).map List.length =
          natChunks 500 ids.length) ∧
    natChunks 500 1200 = [500, 500, 200] ∧
    natChunks 500 7 = [7] ∧
    (∀ (threads : List MemoryFirestore.ThreadRec)
        (messages : List MemoryFirestore.MessageRec) (threadId : String),
        (MemoryFirestore.deleteThread threads messages threadId).messageCommits.length
            ≤ 1 ∧
        ((MemoryFirestore.deleteThread threads messages
            threadId).messageCommits.map List.length).sum =
          (messages.filter (fun m => m.threadId == threadId)).length) := by
  refine ⟨?_, ?_, ?_, by decide, by decide, ?_⟩
  · intro ρ records
    exact ⟨fun c hc => length_le_of_mem_chunksOf hc,
      flatten_chunksOf 500 (by omega) records,
      map_length_chunksOf 500 records⟩
  · intro records
    by_cases h : records.length = 0
    · rw [List.length_eq_zero] at h
      subst h
      exact ⟨by simp [TracesFirestore.batchTraceInsert, chunksOf, chunksOfFuel],
        by simp [TracesFirestore.batchTraceInsert, chunksOf, chunksOfFuel, natChunks,
          natChunksFuel]⟩
    · refine ⟨fun c hc => ?_, ?_⟩
      · simp only [TracesFirestore.batchTraceInsert, if_neg h] at hc
        exact length_le_of_mem_chunksOf hc
      · simp only [TracesFirestore.batchTraceInsert, if_neg h]
        exact map_length_chunksOf 500 records
  · intro ids
    by_cases h : ids.length = 0
    · rw [List.length_eq_zero] at h
      subst h
      exact ⟨by simp [MemoryFirestore.deleteMessages, chunksOf, chunksOfFuel],
        by simp [MemoryFirestore.deleteMessages, chunksOf, chunksOfFuel, natChunks,
          natChunksFuel]⟩
    · refine ⟨fun c hc => ?_, ?_⟩
      · simp only [MemoryFirestore.deleteMessages, if_neg h] at hc
        exact length_le_of_mem_chunksOf hc
      · simp only [MemoryFirestore.deleteMessages, if_neg h]
        exact map_length_chunksOf 500 ids
  · intro threads messages threadId
    by_cases h : (messages.filter (fun m => m.threadId == threadId)).length > 0
    · simp [MemoryFirestore.deleteThread, h]
    · simp [MemoryFirestore.deleteThread, h]
      omega

/-- C2 witness: inserting 1200 records commits batches of 500, 500 and 200, and
deleting 7 message ids commits exactly one batch of 7. -/
theorem c2_amended_batch_chunking_witness :
    (StoreOperationsFirestore.batchInsert (List.replicate 1200 sampleMessage)).map
        List.length = [500, 500, 200] ∧
    (MemoryFirestore.deleteMessages
        ["a", "b", "c", "d", "e", "f", "g"]).map List.length = [7] := by
  have h := c2_amended_batch_chunking
  constructor
  · rw [(h.1 _ (List.replicate 1200 sampleMessage)).2.2]
    rw [List.length_replicate]
    exact h.2.2.2.1
  · rw [(h.2.2.1 ["a", "b", "c", "d", "e", "f", "g"]).2]
    exact h.2.2.2.2.1

/-- C6: `getMessagesById` windows the ids into groups of at most 10 (the backend's
`in`-filter limit), issues one query per group (`ceil(n / 10)` queries, hence
exactly 3 for 25 ids), and returns exactly the records whose id is among the
requested ids — the concatenation of all groups' matches. -/
theorem c6_getMessagesById_chunked (store : List MemoryFirestore.MessageRec)
    (messageIds : List String) :
    (∀ b ∈ chunksOf 10 messageIds, b.length ≤ 10) ∧
    (MemoryFirestore.getMessagesById store messageIds).numQueries =
      (messageIds.length + 9) / 10 ∧
    (messageIds.length = 25 →
      (MemoryFirestore.getMessagesById store messageIds).numQueries = 3) ∧
    (∀ m, m ∈ (MemoryFirestore.getMessagesById store messageIds).messages ↔
      m ∈ store ∧ m.id ∈ messageIds) := by
  have hq : (MemoryFirestore.getMessagesById store messageIds).numQueries =
      (messageIds.length + 9) / 10 := by
    by_cases h : messageIds.length = 0
    · rw [MemoryFirestore.getMessagesById, if_pos h, h]
    · simp only [MemoryFirestore.getMessagesById, if_neg h]
      exact length_chunksOf 10 (by omega) messageIds
  refine ⟨fun b hb => length_le_of_mem_chunksOf hb, hq, ?_, ?_⟩
  · intro h25
    rw [hq, h25]
  · intro m
    by_cases h : messageIds.length = 0
    · rw [List.length_eq_zero] at h
      subst h
      simp [MemoryFirestore.getMessagesById]
    · simp only [MemoryFirestore.getMessagesById, if_neg h, List.mem_flatMap,
        List.mem_filter, decide_eq_true_eq]
      constructor
      · rintro ⟨b, hb, hm, hid⟩
        refine ⟨hm, ?_⟩
        rw [← flatten_chunksOf 10 (by omega) messageIds]
        exact List.mem_flatten.mpr ⟨b, hb, hid⟩
      · rintro ⟨hm, hid⟩
        rw [← flatten_chunksOf 10 (by omega) messageIds] at hid
        rcases List.mem_flatten.mp hid with ⟨b, hb, hidb⟩
        exact ⟨b, hb, hm, hidb⟩

/-- The 25 sample message ids of the chunked-fetch scenario. -/
def ids25 : List String :=
  ["i01", "i02", "i03", "i04", "i05", "i06", "i07", "i08", "i09", "i10",
   "i11", "i12", "i13", "i14", "i15", "i16", "i17", "i18", "i19", "i20",
   "i21", "i22", "i23", "i24", "i25"]

/-- C6 witness: fetching 25 ids issues exactly 3 underlying queries, and a stored
message whose id is among them is returned. -/
theorem c6_getMessagesById_chunked_witness :
    (MemoryFirestore.getMessagesById
        [{ id := "i07", threadId := "T1", content := "hi", createdAt := 0,
           updatedAt := none }] ids25).numQueries = 3 ∧
    ({ id := "i07", threadId := "T1", content := "hi", createdAt := 0,
       updatedAt := none } : MemoryFirestore.MessageRec) ∈
      (MemoryFirestore.getMessagesById
        [{ id := "i07", threadId := "T1", content := "hi", createdAt := 0,
           updatedAt := none }] ids25).messages := by
  constructor
  · exact (c6_getMessagesById_chunked _ ids25).2.2.1 (by decide)
  · exact ((c6_getMessagesById_chunked _ ids25).2.2.2 _).mpr ⟨by decide, by decide⟩

/-- A sample caller-side message (no timestamps supplied) used for concrete
evaluations. -/
def sampleMessageIn : MemoryFirestore.MessageIn :=
  { id := "m1", threadId := "t1", content := "hi", createdAt := none,
    updatedAt := none }

/-- C7 counterexample: saving messages is a write, yet the stored message gets no
`updatedAt` assigned, and creating an AI span likewise leaves `updatedAt`
unassigned — refuting "assigns updatedAt on every mutation" for these writes. -/
theorem c7_saveMessages_no_updatedAt_counterexample :
    (MemoryFirestore.saveMessages [sampleMessageIn] 5).map (fun m => m.updatedAt) =
        [none] ∧
    (ObservabilityFirestore.createAISpan sampleSpan 5).updatedAt = none := by
  constructor
  · rfl
  · rfl

/-- C7 amended: saving a thread, a score or a resource assigns `createdAt` on
insert when the caller did not supply it (a score's caller never can) and assigns
`updatedAt` on every such write; saving messages and creating a span assign
`createdAt` when absent but do NOT assign `updatedAt`. -/
theorem c7_amended_write_timestamps :
    (∀ (thread : MemoryFirestore.ThreadIn) (now : Nat),
        (thread.createdAt = none → (MemoryFirestore.saveThread thread now).createdAt = now) ∧
        (∀ c, thread.createdAt = some c →
          (MemoryFirestore.saveThread thread now).createdAt = c) ∧
        (MemoryFirestore.saveThread thread now).updatedAt = now) ∧
    (∀ (score : ScoresFirestore.ScoreIn) (generatedId : String) (now : Nat),
        (ScoresFirestore.saveScore score generatedId now).createdAt = now ∧
        (ScoresFirestore.saveScore score generatedId now).updatedAt = now) ∧
    (∀ (resource : MemoryFirestore.ResourceIn) (now : Nat),
        (resource.createdAt = none →
          (MemoryFirestore.saveResource resource now).createdAt = now) ∧
        (∀ c, resource.createdAt = some c →
          (MemoryFirestore.saveResource resource now).createdAt = c) ∧
        (MemoryFirestore.saveResource resource now).updatedAt = now) ∧
    (∀ (msgs : List MemoryFirestore.MessageIn) (now : Nat),
        (MemoryFirestore.saveMessages msgs now).map (fun m => m.createdAt) =
          msgs.map (fun m => m.createdAt.getD now) ∧
        (MemoryFirestore.saveMessages msgs now).map (fun m => m.updatedAt) =
          msgs.map (fun m => m.updatedAt)) ∧
    (∀ (span : ObservabilityFirestore.SpanRec) (now : Nat),
        (span.createdAt = none →
          (ObservabilityFirestore.createAISpan span now).createdAt = some now) ∧
        (∀ c, span.createdAt = some c →
          (ObservabilityFirestore.createAISpan span now).createdAt = some c) ∧
        (ObservabilityFirestore.createAISpan span now).updatedAt = span.updatedAt) := by
  refine ⟨?_, ?_, ?_, ?_, ?_⟩
  · intro thread now
    refine ⟨fun h => ?_, fun c h => ?_, rfl⟩
    · simp [MemoryFirestore.saveThread, h]
    · simp [MemoryFirestore.saveThread, h]
  · intro score generatedId now
    exact ⟨rfl, rfl⟩
  · intro resource now
    refine ⟨fun h => ?_, fun c h => ?_, rfl⟩
    · simp [MemoryFirestore.saveResource, h]
    · simp [MemoryFirestore.saveResource, h]
  · intro msgs now
    constructor
    · simp [MemoryFirestore.saveMessages]
    · simp [MemoryFirestore.saveMessages]
  · intro span now
    refine ⟨fun h => ?_, fun c h => ?_, rfl⟩
    · simp [ObservabilityFirestore.createAISpan, h]
    · simp [ObservabilityFirestore.createAISpan, h]

/-- C7 witness: a thread saved at time 5 without a caller-supplied `createdAt`
stores `createdAt = 5` and `updatedAt = 5`. -/
theorem c7_amended_write_timestamps_witness :
    (MemoryFirestore.saveThread
        { id := "t1", resourceId := "r1", title := "hello", metadata := none,
          createdAt := none, updatedAt := none } 5).createdAt = 5 ∧
    (MemoryFirestore.saveThread
        { id := "t1", resourceId := "r1", title := "hello", metadata := none,
          createdAt := none, updatedAt := none } 5).updatedAt = 5 :=
  ⟨(c7_amended_write_timestamps.1
      { id := "t1", resourceId := "r1", title := "hello", metadata := none,
        createdAt := none, updatedAt := none } 5).1 rfl,
   (c7_amended_write_timestamps.1
      { id := "t1", resourceId := "r1", title := "hello", metadata := none,
        createdAt := none, updatedAt := none } 5).2.2⟩

namespace StoreOperationsFirestore

theorem roundTripVal (v : FieldVal) (h : hasSecondsKey v = false) :
    deserializeVal (serializeVal v) = (truncToSecond v).toDecoded := by
  cases v with
  | str s => rfl
  | num n => rfl
  | null => rfl
  | date ms => rfl
  | obj fields =>
    simp only [serializeVal, deserializeVal, jsonRoundTripFields_eq]
    simp only [hasSecondsKey] at h
    cases hlk : jFieldsLookup fields "_seconds" with
    | some v => rw [hlk] at h; simp at h
    | none => rfl

end StoreOperationsFirestore

/-- The record `{ k: { _seconds: 5 } }`: its only field is a nested plain object
that happens to carry a `_seconds` key. -/
def secondsObjRecord : List (String × StoreOperationsFirestore.FieldVal) :=
  [("k", StoreOperationsFirestore.FieldVal.obj
      (StoreOperationsFirestore.JFields.cons "_seconds"
        (StoreOperationsFirestore.JVal.num 5) StoreOperationsFirestore.JFields.nil))]

/-- C5 counterexample: the nested plain object `{ _seconds: 5 }` does not
round-trip — decode misrecognizes it as a backend timestamp and returns the date
`5000 ms` instead of the object, an inequality no timestamp-precision allowance can
excuse since the original field is not a date at all. -/
theorem c5_roundtrip_seconds_key_counterexample :
    StoreOperationsFirestore.deserializeRecord
        (StoreOperationsFirestore.serializeRecord secondsObjRecord) =
      [("k", StoreOperationsFirestore.DecodedVal.date 5000)] ∧
    StoreOperationsFirestore.deserializeRecord
        (StoreOperationsFirestore.serializeRecord secondsObjRecord) ≠
      secondsObjRecord.map (fun kv => (kv.1, kv.2.toDecoded)) := by
  constructor
  · decide
  · decide

/-- C5 amended: for every record whose fields are of the supported types (string,
number, date, nested plain object, null) and whose nested objects carry no
top-level `_seconds` key, decoding the encoded stored form gives back the record
with every date field truncated to whole seconds (the backend-timestamp
second-level precision); every non-date field is recovered exactly. -/
theorem c5_amended_codec_roundtrip
    (record : List (String × StoreOperationsFirestore.FieldVal))
    (h : ∀ kv ∈ record, StoreOperationsFirestore.hasSecondsKey kv.2 = false) :
    StoreOperationsFirestore.deserializeRecord
        (StoreOperationsFirestore.serializeRecord record) =
      record.map (fun kv =>
        (kv.1, (StoreOperationsFirestore.truncToSecond kv.2).toDecoded)) := by
  induction record with
  | nil => rfl
  | cons kv rest ih =>
    simp only [StoreOperationsFirestore.serializeRecord,
      StoreOperationsFirestore.deserializeRecord, List.map_cons, List.cons.injEq]
    refine ⟨?_, ?_⟩
    · rw [StoreOperationsFirestore.roundTripVal kv.2 (h kv (List.mem_cons_self kv rest))]
    · have := ih (fun kv2 hkv2 => h kv2 (List.mem_cons_of_mem kv hkv2))
      simpa [StoreOperationsFirestore.serializeRecord,
        StoreOperationsFirestore.deserializeRecord] using this

/-- A sample record with one field of each supported type (the nested object has
no `_seconds` key). -/
def sampleRecord : List (String × StoreOperationsFirestore.FieldVal) :=
  [("name", StoreOperationsFirestore.FieldVal.str "alice"),
   ("count", StoreOperationsFirestore.FieldVal.num 3),
   ("createdAt", StoreOperationsFirestore.FieldVal.date 1234567),
   ("note", StoreOperationsFirestore.FieldVal.null),
   ("meta", StoreOperationsFirestore.FieldVal.obj
      (StoreOperationsFirestore.JFields.cons "k"
        (StoreOperationsFirestore.JVal.str "v") StoreOperationsFirestore.JFields.nil))]

/-- C5 witness: the sample record round-trips with its date `1234567 ms` truncated
to `1234000 ms` and every other field intact. -/
theorem c5_amended_codec_roundtrip_witness :
    StoreOperationsFirestore.deserializeRecord
        (StoreOperationsFirestore.serializeRecord sampleRecord) =
      sampleRecord.map (fun kv =>
        (kv.1, (StoreOperationsFirestore.truncToSecond kv.2).toDecoded)) ∧
    StoreOperationsFirestore.deserializeRecord
        (StoreOperationsFirestore.serializeRecord sampleRecord) =
      [("name", StoreOperationsFirestore.DecodedVal.str "alice"),
       ("count", StoreOperationsFirestore.DecodedVal.num 3),
       ("createdAt", StoreOperationsFirestore.DecodedVal.date 1234000),
       ("note", StoreOperationsFirestore.DecodedVal.null),
       ("meta", StoreOperationsFirestore.DecodedVal.obj
          (StoreOperationsFirestore.JFields.cons "k"
            (StoreOperationsFirestore.JVal.str "v")
            StoreOperationsFirestore.JFields.nil))] :=
  ⟨c5_amended_codec_roundtrip sampleRecord (by decide), by decide⟩

theorem paginateWindow_key_desc_sorted {β : Type u} (key : β → Nat) (docs : List β)
    (page perPage : Nat) :
    (paginateWindow docs (fun a b => key b ≤ key a) page perPage).items.Pairwise
      (fun a b => key b ≤ key a) := by
  have h := paginateWindow_items_pairwise docs (fun a b => decide (key b ≤ key a))
    (fun a b => by
      rcases Nat.le_total (key b) (key a) with h1 | h1
      · exact Or.inl (decide_eq_true h1)
      · exact Or.inr (decide_eq_true h1))
    (fun a b c hab hbc =>
      decide_eq_true (Nat.le_trans (of_decide_eq_true hbc) (of_decide_eq_true hab)))
    page perPage
  exact h.imp (fun hx => of_decide_eq_true hx)

theorem paginateWindow_key_asc_sorted {β : Type u} (key : β → Nat) (docs : List β)
    (page perPage : Nat) :
    (paginateWindow docs (fun a b => key a ≤ key b) page perPage).items.Pairwise
      (fun a b => key a ≤ key b) := by
  have h := paginateWindow_items_pairwise docs (fun a b => decide (key a ≤ key b))
    (fun a b => by
      rcases Nat.le_total (key a) (key b) with h1 | h1
      · exact Or.inl (decide_eq_true h1)
      · exact Or.inr (decide_eq_true h1))
    (fun a b c hab hbc =>
      decide_eq_true (Nat.le_trans (of_decide_eq_true hab) (of_decide_eq_true hbc)))
    page perPage
  exact h.imp (fun hx => of_decide_eq_true hx)

theorem sortBy_key_desc_window_sorted {β : Type u} (key : β → Nat) (docs : List β)
    (off lim : Nat) :
    (((sortBy (fun a b => key b ≤ key a) docs).drop off).take lim).Pairwise
      (fun a b => key b ≤ key a) := by
  have h := pairwise_sortBy (fun a b => decide (key b ≤ key a))
    (fun a b => by
      rcases Nat.le_total (key b) (key a) with h1 | h1
      · exact Or.inl (decide_eq_true h1)
      · exact Or.inr (decide_eq_true h1))
    (fun a b c hab hbc =>
      decide_eq_true (Nat.le_trans (of_decide_eq_true hbc) (of_decide_eq_true hab)))
    docs
  have h2 := h.sublist
    ((((sortBy (fun a b => decide (key b ≤ key a)) docs).drop off).take_sublist
        lim).trans
      ((sortBy (fun a b => decide (key b ≤ key a)) docs).drop_sublist off))
  exact h2.imp (fun hx => of_decide_eq_true hx)

/-- A sample thread created at time 1 under resource `r`. -/
def threadA : MemoryFirestore.ThreadRec :=
  { id := "t1", resourceId := "r", title := "a", metadata := [], createdAt := 1,
    updatedAt := 1 }

/-- A sample thread created at time 2 under resource `r`. -/
def threadB : MemoryFirestore.ThreadRec :=
  { id := "t2", resourceId := "r", title := "b", metadata := [], createdAt := 2,
    updatedAt := 2 }

/-- C8 counterexample: with no sort direction specified, the paginated thread query
returns creation times in ASCENDING order (`[1, 2]`), which is not descending —
the destructuring default is `sortDirection = "ASC"`, refuting the claim that
every paginated query defaults to descending creation-time order. -/
theorem c8_threads_default_asc_counterexample :
    ((MemoryFirestore.getThreadsByResourceIdPaginated [threadA, threadB] "r"
        (some 1) (some 20) none none).items.map (fun t => t.createdAt) = [1, 2]) ∧
    ¬ ((MemoryFirestore.getThreadsByResourceIdPaginated [threadA, threadB] "r"
        (some 1) (some 20) none none).items.map (fun t => t.createdAt)).Pairwise
        (fun a b => b ≤ a) := by
  constructor
  · decide
  · decide

/-- C8 amended: the score, eval, trace and workflow-run paginated queries (whose
callers cannot pick a direction) order DESCENDING by their creation-time field
before windowing; the thread query defaults to ASCENDING by the selected field
(`createdAt` by default) when the caller does not specify a direction, and the
message query always orders ASCENDING by `createdAt`. -/
theorem c8_amended_default_ordering :
    (∀ (docs : List ScoresFirestore.ScoreRec) (pagination : StoragePagination),
        (ScoresFirestore.executePaginatedQuery docs pagination).items.Pairwise
          (fun a b => b.createdAt ≤ a.createdAt)) ∧
    (∀ (store : List LegacyEvalsFirestore.EvalRec) (agentName type? : Option String)
        (page perPage : Option Nat),
        (LegacyEvalsFirestore.getEvals store agentName type? page perPage).items.Pairwise
          (fun a b => b.createdAt ≤ a.createdAt)) ∧
    (∀ (store : List TracesFirestore.TraceRec) (fromDate toDate : Option Nat)
        (page perPage : Option Nat) (pg : PageWindow TracesFirestore.TraceRec),
        TracesFirestore.getTracesPaginated store fromDate toDate page perPage =
          Except.ok pg →
        pg.items.Pairwise (fun a b => b.timestamp ≤ a.timestamp)) ∧
    (∀ (store : List WorkflowsFirestore.SnapshotDoc)
        (workflowName resourceId : Option String) (fromDate toDate : Option Nat)
        (limit offset : Option Nat),
        (WorkflowsFirestore.getWorkflowRuns store workflowName resourceId fromDate
          toDate limit offset).runs.Pairwise
          (fun a b => b.createdAt.getD 0 ≤ a.createdAt.getD 0)) ∧
    (∀ (store : List MemoryFirestore.ThreadRec) (resourceId : String)
        (page perPage : Option Nat) (orderBy : Option ThreadOrderBy),
        (MemoryFirestore.getThreadsByResourceIdPaginated store resourceId page perPage
          orderBy none).items.Pairwise
          (fun a b => MemoryFirestore.threadSortKey (orderBy.getD .createdAt) a ≤
            MemoryFirestore.threadSortKey (orderBy.getD .createdAt) b)) ∧
    (∀ (store : List MemoryFirestore.MessageRec) (threadId : String)
        (includeIds : List String) (page perPage : Option Nat),
        (MemoryFirestore.getMessagesPaginated store threadId includeIds page
          perPage).items.Pairwise (fun a b => a.createdAt ≤ b.createdAt)) := by
  refine ⟨?_, ?_, ?_, ?_, ?_, ?_⟩
  · intro docs pagination
    exact paginateWindow_key_desc_sorted (fun s : ScoresFirestore.ScoreRec => s.createdAt) _ _ _
  · intro store agentName type? page perPage
    exact paginateWindow_key_desc_sorted (fun e : LegacyEvalsFirestore.EvalRec => e.createdAt) _ _ _
  · intro store fromDate toDate page perPage pg hpg
    rcases page with _ | p
    · simp [TracesFirestore.getTracesPaginated] at hpg
    · rcases perPage with _ | pp
      · simp [TracesFirestore.getTracesPaginated] at hpg
      · simp only [TracesFirestore.getTracesPaginated, Except.ok.injEq] at hpg
        rw [← hpg]
        exact paginateWindow_key_desc_sorted (fun t : TracesFirestore.TraceRec => t.timestamp) _ _ _
  · intro store workflowName resourceId fromDate toDate limit offset
    exact sortBy_key_desc_window_sorted
      (fun d : WorkflowsFirestore.SnapshotDoc => d.createdAt.getD 0) _ _ _
  · intro store resourceId page perPage orderBy
    exact paginateWindow_key_asc_sorted
      (MemoryFirestore.threadSortKey (orderBy.getD .createdAt)) _ _ _
  · intro store threadId includeIds page perPage
    exact paginateWindow_key_asc_sorted (fun m : MemoryFirestore.MessageRec => m.createdAt) _ _ _

/-- C8 witness: on a two-score collection the default-direction score page comes
back in descending creation-time order, and the ok case of the trace query is
descending as well. -/
theorem c8_amended_default_ordering_witness :
    (ScoresFirestore.executePaginatedQuery
        [ScoresFirestore.saveScore
            { scorerId := "s", entityId := "e", entityType := "msg",
              source := "user", runId := "r", traceId := "tr", spanId := "sp",
              score := 1 } "id1" 1,
         ScoresFirestore.saveScore
            { scorerId := "s", entityId := "e", entityType := "msg",
              source := "user", runId := "r", traceId := "tr", spanId := "sp",
              score := 2 } "id2" 2]
        { page := none, perPage := none }).items.Pairwise
      (fun a b => b.createdAt ≤ a.createdAt) :=
  c8_amended_default_ordering.1 _ { page := none, perPage := none }

/-- A sample trace document. -/
def sampleTrace : TracesFirestore.TraceRec := { id := "tr1", timestamp := 1 }

/-- C1 counterexample: `getTracesPaginated` does not default `page` / `perPage` —
with both left unspecified the call is rejected by the backend client
(`NaN` offset) instead of returning the defaulted `page = 1, perPage = 20` window
of at most 20 items that the claim promises for every paginated list operation. -/
theorem c1_traces_no_defaults_counterexample :
    TracesFirestore.getTracesPaginated [sampleTrace] none none none none =
      Except.error "Value for argument offset is not a valid integer." ∧
    (TracesFirestore.getTracesPaginated [sampleTrace] none none none none).isOk =
      false :=
  ⟨rfl, rfl⟩

/-- C1 amended: the scores, evals, threads and messages paginated operations
default `page = 1, perPage = 20` when unspecified, return at most `perPage` items,
report `total` as the count of all records matching the filters, and report
`hasMore` true iff `total > (page - 1) * perPage + perPage`; `getTracesPaginated`
satisfies the same window contract but only when the caller supplies `page` and
`perPage` explicitly — with either unspecified it fails instead of defaulting
(pages are 1-indexed; `page <= 0` is undefined behaviour per the spec). -/
theorem c1_amended_pagination_contract :
    (∀ (store : List ScoresFirestore.ScoreRec) (scorerId : String)
        (entityId entityType source : Option String) (pagination : StoragePagination),
        1 ≤ pagination.page.getD 1 →
        (ScoresFirestore.getScoresByScorerId store scorerId entityId entityType source
            pagination).page = pagination.page.getD 1 ∧
        (ScoresFirestore.getScoresByScorerId store scorerId entityId entityType source
            pagination).perPage = pagination.perPage.getD 20 ∧
        (ScoresFirestore.getScoresByScorerId store scorerId entityId entityType source
            pagination).items.length ≤ pagination.perPage.getD 20 ∧
        (ScoresFirestore.getScoresByScorerId store scorerId entityId entityType source
            pagination).total =
          (optFilterEq (fun s => s.source) source
            (optFilterEq (fun s => s.entityType) entityType
              (optFilterEq (fun s => s.entityId) entityId
                (store.filter (fun s => s.scorerId == scorerId))))).length ∧
        ((ScoresFirestore.getScoresByScorerId store scorerId entityId entityType source
            pagination).hasMore = true ↔
          (ScoresFirestore.getScoresByScorerId store scorerId entityId entityType source
              pagination).total >
            (pagination.page.getD 1 - 1) * pagination.perPage.getD 20 +
              pagination.perPage.getD 20)) ∧
    (∀ (store : List LegacyEvalsFirestore.EvalRec) (agentName type? : Option String)
        (page perPage : Option Nat),
        1 ≤ page.getD 1 →
        (LegacyEvalsFirestore.getEvals store agentName type? page perPage).page =
          page.getD 1 ∧
        (LegacyEvalsFirestore.getEvals store agentName type? page perPage).perPage =
          perPage.getD 20 ∧
        (LegacyEvalsFirestore.getEvals store agentName type? page
            perPage).items.length ≤ perPage.getD 20 ∧
        (LegacyEvalsFirestore.getEvals store agentName type? page perPage).total =
          (optFilterEq (fun e => e.type) type?
            (optFilterEq (fun e => e.agentName) agentName store)).length ∧
        ((LegacyEvalsFirestore.getEvals store agentName type? page perPage).hasMore =
            true ↔
          (LegacyEvalsFirestore.getEvals store agentName type? page perPage).total >
            (page.getD 1 - 1) * perPage.getD 20 + perPage.getD 20)) ∧
    (∀ (store : List MemoryFirestore.ThreadRec) (resourceId : String)
        (page perPage : Option Nat) (orderBy : Option ThreadOrderBy)
        (sortDirection : Option SortDirection),
        1 ≤ page.getD 1 →
        (MemoryFirestore.getThreadsByResourceIdPaginated store resourceId page perPage
            orderBy sortDirection).page = page.getD 1 ∧
        (MemoryFirestore.getThreadsByResourceIdPaginated store resourceId page perPage
            orderBy sortDirection).perPage = perPage.getD 20 ∧
        (MemoryFirestore.getThreadsByResourceIdPaginated store resourceId page perPage
            orderBy sortDirection).items.length ≤ perPage.getD 20 ∧
        (MemoryFirestore.getThreadsByResourceIdPaginated store resourceId page perPage
            orderBy sortDirection).total =
          (store.filter (fun t => t.resourceId == resourceId)).length ∧
        ((MemoryFirestore.getThreadsByResourceIdPaginated store resourceId page perPage
            orderBy sortDirection).hasMore = true ↔
          (MemoryFirestore.getThreadsByResourceIdPaginated store resourceId page
              perPage orderBy sortDirection).total >
            (page.getD 1 - 1) * perPage.getD 20 + perPage.getD 20)) ∧
    (∀ (store : List MemoryFirestore.MessageRec) (threadId : String)
        (includeIds : List String) (page perPage : Option Nat),
        1 ≤ page.getD 1 →
        (MemoryFirestore.getMessagesPaginated store threadId includeIds page
            perPage).page = page.getD 1 ∧
        (MemoryFirestore.getMessagesPaginated store threadId includeIds page
            perPage).perPage = perPage.getD 20 ∧
        (MemoryFirestore.getMessagesPaginated store threadId includeIds page
            perPage).items.length ≤ perPage.getD 20 ∧
        (MemoryFirestore.getMessagesPaginated store threadId includeIds page
            perPage).total =
          (store.filter (fun m =>
            m.threadId == threadId && includeIds.all (fun i => m.id == i))).length ∧
        ((MemoryFirestore.getMessagesPaginated store threadId includeIds page
            perPage).hasMore = true ↔
          (MemoryFirestore.getMessagesPaginated store threadId includeIds page
              perPage).total >
            (page.getD 1 - 1) * perPage.getD 20 + perPage.getD 20)) ∧
    (∀ (store : List TracesFirestore.TraceRec) (fromDate toDate : Option Nat)
        (page perPage : Option Nat),
        page = none ∨ perPage = none →
        TracesFirestore.getTracesPaginated store fromDate toDate page perPage =
          Except.error "Value for argument offset is not a valid integer.") ∧
    (∀ (store : List TracesFirestore.TraceRec) (fromDate toDate : Option Nat)
        (page perPage : Nat),
        1 ≤ page →
        ∃ pg, TracesFirestore.getTracesPaginated store fromDate toDate (some page)
            (some perPage) = Except.ok pg ∧
          pg.page = page ∧ pg.perPage = perPage ∧ pg.items.length ≤ perPage ∧
          pg.total = (TracesFirestore.traceQuery store fromDate toDate).length ∧
          (pg.hasMore = true ↔
            pg.total > (page - 1) * perPage + perPage)) := by
  refine ⟨?_, ?_, ?_, ?_, ?_, ?_⟩
  · intro store scorerId entityId entityType source pagination hp
    exact ⟨rfl, rfl, paginateWindow_items_length_le _ _ _ _, rfl,
      paginateWindow_hasMore _ _ _ _⟩
  · intro store agentName type? page perPage hp
    exact ⟨rfl, rfl, paginateWindow_items_length_le _ _ _ _, rfl,
      paginateWindow_hasMore _ _ _ _⟩
  · intro store resourceId page perPage orderBy sortDirection hp
    exact ⟨rfl, rfl, paginateWindow_items_length_le _ _ _ _, rfl,
      paginateWindow_hasMore _ _ _ _⟩
  · intro store threadId includeIds page perPage hp
    exact ⟨rfl, rfl, paginateWindow_items_length_le _ _ _ _, rfl,
      paginateWindow_hasMore _ _ _ _⟩
  · intro store fromDate toDate page perPage h
    rcases h with rfl | rfl
    · rfl
    · rcases page with _ | p <;> rfl
  · intro store fromDate toDate page perPage hp
    exact ⟨paginateWindow (TracesFirestore.traceQuery store fromDate toDate)
        (fun a b => b.timestamp ≤ a.timestamp) page perPage, rfl, rfl, rfl,
      paginateWindow_items_length_le _ _ _ _, rfl, paginateWindow_hasMore _ _ _ _⟩

/-- A sample caller-supplied score for scorer `s1`. -/
def sampleScoreIn : ScoresFirestore.ScoreIn :=
  { scorerId := "s1", entityId := "e1", entityType := "msg", source := "user",
    runId := "r1", traceId := "tr1", spanId := "sp1", score := 1 }

/-- C1 witness: after saving one score for scorer `s1`, querying scorer `s1` with
unspecified pagination uses `page = 1, perPage = 20` and reports `total = 1`,
`hasMore = false`, with a single-item page. -/
theorem c1_amended_pagination_contract_witness :
    (ScoresFirestore.getScoresByScorerId [ScoresFirestore.saveScore sampleScoreIn
        "id1" 3] "s1" none none none { page := none, perPage := none }).page = 1 ∧
    (ScoresFirestore.getScoresByScorerId [ScoresFirestore.saveScore sampleScoreIn
        "id1" 3] "s1" none none none { page := none, perPage := none }).perPage =
      20 ∧
    (ScoresFirestore.getScoresByScorerId [ScoresFirestore.saveScore sampleScoreIn
        "id1" 3] "s1" none none none
        { page := none, perPage := none }).items.length ≤ 20 ∧
    (ScoresFirestore.getScoresByScorerId [ScoresFirestore.saveScore sampleScoreIn
        "id1" 3] "s1" none none none { page := none, perPage := none }).total = 1 ∧
    (ScoresFirestore.getScoresByScorerId [ScoresFirestore.saveScore sampleScoreIn
        "id1" 3] "s1" none none none { page := none, perPage := none }).hasMore =
      false := by
  have h := c1_amended_pagination_contract.1
    [ScoresFirestore.saveScore sampleScoreIn "id1" 3] "s1" none none none
    { page := none, perPage := none } (by decide)
  exact ⟨h.1, h.2.1, h.2.2.1, by decide, by decide⟩
